import Mathlib

/-!
# Verification of the SvxLink `Squelch` base class (src/svxlink/svxlink/Squelch.h)

Shallow embedding of the squelch engine: the state record mirrors the private
fields of `class Squelch` (`m_name`, `m_open`, `hangtime`, `hangtime_left`),
and each member function becomes a Lean function on that record.  The
`squelchOpen` SigC signal is modelled by returning the list of boolean values
emitted during a call, in emission order.  The pure-virtual detection
capability `processSamples` is modelled by its observable behaviour during one
`audioIn` call: the ordered list of booleans it passes to `setOpen`, plus the
consumed-count it returns.  C `int` is modelled as `Int` (the claims never
approach the 32-bit range, so overflow is irrelevant).
-/

namespace SvxSquelch

/-- State of a `Squelch` object: the four data members of the C++ class. -/
structure Squelch where
  m_name : String
  m_open : Bool
  hangtime : Int
  hangtime_left : Int
deriving DecidableEq, Repr

/-- The default constructor `Squelch() : m_open(false), hangtime(1),
hangtime_left(0)` (the `std::string` member default-constructs to `""`). -/
def initSquelch : Squelch :=
  { m_name := "", m_open := false, hangtime := 1, hangtime_left := 0 }

/-- `Squelch::setHangtime(int hang_samples)`:
`hangtime = (hang_samples >= 1) ? hang_samples : 1`. -/
def Squelch.setHangtime (s : Squelch) (hang_samples : Int) : Squelch :=
  { s with hangtime := if hang_samples ≥ 1 then hang_samples else 1 }

/-- `Squelch::setOpen(bool is_open)`.  Returns the updated state together with
the list of values emitted on the `squelchOpen` signal during the call. -/
def Squelch.setOpen (s : Squelch) (is_open : Bool) : Squelch × List Bool :=
  if is_open then
    if s.m_open then ({ s with hangtime_left := 0 }, [])
    else ({ s with hangtime_left := 0, m_open := true }, [true])
  else
    if s.m_open = true ∧ s.hangtime_left ≤ 0 then
      ({ s with hangtime_left := s.hangtime }, [])
    else (s, [])

/-- The sequence of `setOpen` calls a detection capability makes from inside
`processSamples`, folded over the state; collects all emitted signal values. -/
def runCalls (s : Squelch) (calls : List Bool) : Squelch × List Bool :=
  match calls with
  | [] => (s, [])
  | b :: rest =>
      let r1 := s.setOpen b
      let r2 := runCalls r1.1 rest
      (r2.1, r1.2 ++ r2.2)

/-- `Squelch::audioIn(short *samples, int count)`.  The detection capability
is abstracted by `calls` (the `setOpen` calls it performs, in order) and
`ret_count` (the value `processSamples` returns).  Result: updated state, the
emitted signal values of the whole call, and the returned processed count. -/
def Squelch.audioIn (s : Squelch) (calls : List Bool) (ret_count : Int)
    (count : Int) : Squelch × List Bool × Int :=
  let r := runCalls s calls
  if r.1.hangtime_left > 0 then
    let hl := r.1.hangtime_left - count
    if hl ≤ 0 then
      ({ r.1 with hangtime_left := hl, m_open := false },
       r.2 ++ [false], ret_count)
    else
      ({ r.1 with hangtime_left := hl }, r.2, ret_count)
  else (r.1, r.2, ret_count)

/-- `Squelch::isOpen()`: `return m_open || (hangtime_left > 0);` -/
def Squelch.isOpen (s : Squelch) : Bool :=
  s.m_open || decide (s.hangtime_left > 0)

/-- C `atoi`: skip leading whitespace, optional sign, then a longest run of
decimal digits; an empty digit run yields `0`. -/
def isSpaceC (c : Char) : Bool :=
  c = ' ' || c = '\t' || c = '\n' || c = '\r' ||
  c = Char.ofNat 11 || c = Char.ofNat 12

/-- Value of a digit run, most significant first. -/
def digitsToInt (cs : List Char) : Int :=
  cs.foldl (fun a c => a * 10 + ((c.toNat : Int) - 48)) 0

/-- `atoi(value.c_str())` on the embedded string. -/
def atoi (str : String) : Int :=
  match str.toList.dropWhile isSpaceC with
  | '-' :: rest => - digitsToInt (rest.takeWhile Char.isDigit)
  | '+' :: rest => digitsToInt (rest.takeWhile Char.isDigit)
  | cs => digitsToInt (cs.takeWhile Char.isDigit)

/-- `Squelch::initialize(Async::Config &cfg, const string &rx_name)`.  The
configuration accessor `cfg.getValue(rx_name, "SQL_HANGTIME", value)` is
modelled as a function from section and key to an optional string value.
Returns the updated state and the boolean result of the call. -/
def Squelch.initFromConfig (s : Squelch)
    (cfg : String → String → Option String) (rx_name : String) :
    Squelch × Bool :=
  let sql_hangtime : Int :=
    match cfg rx_name "SQL_HANGTIME" with
    | some value => atoi value * 8
    | none => 0
  (s.setHangtime sql_hangtime, true)

/-- An externally driven operation on the engine: a detector-side `setOpen`,
a `setHangtime`, or an `audioIn` block with the detector behaviour it meets. -/
inductive Op where
  | sOpen (b : Bool)
  | sHang (n : Int)
  | audio (calls : List Bool) (ret : Int) (count : Int)
deriving DecidableEq, Repr

/-- One operation applied to a state: new state plus emitted signal values. -/
def step (s : Squelch) : Op → Squelch × List Bool
  | Op.sOpen b => s.setOpen b
  | Op.sHang n => (s.setHangtime n, [])
  | Op.audio calls ret count =>
      let r := s.audioIn calls ret count
      (r.1, r.2.1)

/-- A sequence of operations applied from a state; collects all emissions. -/
def run (s : Squelch) : List Op → Squelch × List Bool
  | [] => (s, [])
  | op :: rest =>
      let r1 := step s op
      let r2 := run r1.1 rest
      (r2.1, r1.2 ++ r2.2)

/-- The hang-window invariant: a strictly positive countdown implies the
latched open flag is set. -/
def inv (s : Squelch) : Prop :=
  s.hangtime_left > 0 → s.m_open = true

instance (s : Squelch) : Decidable (inv s) := by
  unfold inv; infer_instance

/-- `setOpen` preserves the hang-window invariant. -/
theorem setOpen_inv (s : Squelch) (b : Bool) (h : inv s) : inv (s.setOpen b).1 := by
  unfold inv Squelch.setOpen at *
  split_ifs with h1 h2 h3 <;> simp_all

/-- Any burst of detector `setOpen` calls preserves the invariant. -/
theorem runCalls_inv (s : Squelch) (calls : List Bool) (h : inv s) :
    inv (runCalls s calls).1 := by
  induction calls generalizing s with
  | nil => exact h
  | cons b rest ih => exact ih _ (setOpen_inv s b h)

/-- `audioIn` preserves the hang-window invariant. -/
theorem audioIn_inv (s : Squelch) (calls : List Bool) (ret count : Int)
    (h : inv s) : inv (s.audioIn calls ret count).1 := by
  have h1 := runCalls_inv s calls h
  unfold inv at *
  by_cases ha : (runCalls s calls).1.hangtime_left > 0
  · by_cases hb : (runCalls s calls).1.hangtime_left - count ≤ 0
    · simp only [Squelch.audioIn, ha, hb, if_true, if_pos]
      intro hc
      omega
    · simp only [Squelch.audioIn, ha, hb, if_true, if_neg, not_false_iff]
      intro _
      exact h1 ha
  · simp [Squelch.audioIn, ha]

/-- Every single operation preserves the hang-window invariant. -/
theorem step_inv (s : Squelch) (op : Op) (h : inv s) : inv (step s op).1 := by
  cases op with
  | sOpen b => exact setOpen_inv s b h
  | sHang n => exact h
  | audio calls ret count => exact audioIn_inv s calls ret count h

/-- Every operation sequence preserves the hang-window invariant. -/
theorem run_inv (s : Squelch) (ops : List Op) (h : inv s) :
    inv (run s ops).1 := by
  induction ops generalizing s with
  | nil => exact h
  | cons op rest ih => exact ih _ (step_inv s op h)

/-- Under the invariant, the `isOpen` disjunction collapses to `m_open`. -/
theorem isOpen_eq_of_inv (s : Squelch) (h : inv s) : s.isOpen = s.m_open := by
  unfold Squelch.isOpen
  unfold inv at h
  by_cases hl : s.hangtime_left > 0
  · simp [hl, h hl]
  · simp [hl]

/-- An operation that never requests a squelch close: a detector-side
`setOpen true`, a `setHangtime`, or an `audioIn` block during which the
detection capability only ever calls `setOpen true`. -/
def Op.noClose : Op → Bool
  | Op.sOpen b => b
  | Op.sHang _ => true
  | Op.audio calls _ _ => calls.all (fun c => c)

/-- The actively-open configuration: latched open with no pending countdown. -/
def activeOpen (s : Squelch) : Prop :=
  s.m_open = true ∧ s.hangtime_left ≤ 0

/-- `setOpen true` on a latched-open state only clears the countdown and
emits nothing. -/
theorem setOpen_true_of_open (s : Squelch) (h : s.m_open = true) :
    s.setOpen true = ({ s with hangtime_left := 0 }, []) := by
  simp [Squelch.setOpen, h]

/-- A burst of `setOpen true` calls from an actively-open state stays
actively open and emits nothing. -/
theorem runCalls_activeOpen (s : Squelch) (calls : List Bool)
    (h : activeOpen s) (hc : calls.all (fun c => c) = true) :
    activeOpen (runCalls s calls).1 ∧ (runCalls s calls).2 = [] := by
  induction calls generalizing s with
  | nil => exact ⟨h, rfl⟩
  | cons b rest ih =>
      simp only [List.all_cons, Bool.and_eq_true] at hc
      obtain ⟨hb, hrest⟩ := hc
      subst hb
      have hopen := setOpen_true_of_open s h.1
      have ih' := ih { s with hangtime_left := 0 } ⟨h.1, le_refl 0⟩ hrest
      simp only [runCalls, hopen, List.nil_append]
      exact ih'

/-- One close-free operation from an actively-open state stays actively open
and emits nothing. -/
theorem step_activeOpen (s : Squelch) (op : Op) (h : activeOpen s)
    (hop : op.noClose = true) :
    activeOpen (step s op).1 ∧ (step s op).2 = [] := by
  cases op with
  | sOpen b =>
      simp only [Op.noClose] at hop
      subst hop
      have hopen := setOpen_true_of_open s h.1
      simp only [step, hopen]
      exact ⟨⟨h.1, le_refl 0⟩, by simp⟩
  | sHang n =>
      exact ⟨⟨h.1, h.2⟩, rfl⟩
  | audio calls ret count =>
      simp only [Op.noClose] at hop
      have hrc := runCalls_activeOpen s calls h hop
      have hnot : ¬((runCalls s calls).1.hangtime_left > 0) := by
        exact not_lt.mpr hrc.1.2
      simp only [step, Squelch.audioIn, hnot, if_neg, not_false_iff]
      exact ⟨hrc.1, hrc.2⟩

/-- A close-free operation sequence from an actively-open state stays
actively open and emits nothing. -/
theorem run_activeOpen (s : Squelch) (ops : List Op) (h : activeOpen s)
    (hops : ∀ op ∈ ops, op.noClose = true) :
    activeOpen (run s ops).1 ∧ (run s ops).2 = [] := by
  induction ops generalizing s with
  | nil => exact ⟨h, rfl⟩
  | cons op rest ih =>
      have hstep := step_activeOpen s op h (hops op (List.mem_cons_self op rest))
      have ih' := ih (step s op).1 hstep.1
        (fun o ho => hops o (List.mem_cons_of_mem op ho))
      simp only [run, hstep.2, List.nil_append]
      exact ih'

/-- A `setOpen` call never emits the value `false` (closes are emitted only
from the hang-expiry branch of `audioIn`). -/
theorem setOpen_no_false (s : Squelch) (b : Bool) : false ∉ (s.setOpen b).2 := by
  unfold Squelch.setOpen
  split_ifs <;> simp

/-- A burst of detector `setOpen` calls never emits the value `false`. -/
theorem runCalls_no_false (s : Squelch) (calls : List Bool) :
    false ∉ (runCalls s calls).2 := by
  induction calls generalizing s with
  | nil => simp [runCalls]
  | cons b rest ih =>
      simp only [runCalls, List.mem_append]
      rintro (h | h)
      · exact setOpen_no_false s b h
      · exact ih _ h

/-- C1: whenever the hang countdown is active after the detection capability
has processed the block, `audioIn` decrements `hangtime_left` by the full
input `count` (not by the consumed count `ret_count`); if the countdown
reaches zero or below it clears `m_open` and emits exactly one close
notification (`false`); and the call always returns the detection
capability's consumed count. -/
theorem C1_audioIn_hang_decrement (s : Squelch) (calls : List Bool)
    (ret count : Int) (h : (runCalls s calls).1.hangtime_left > 0) :
    (s.audioIn calls ret count).2.2 = ret ∧
    (s.audioIn calls ret count).1.hangtime_left
      = (runCalls s calls).1.hangtime_left - count ∧
    ((runCalls s calls).1.hangtime_left - count ≤ 0 →
      (s.audioIn calls ret count).1.m_open = false ∧
      (s.audioIn calls ret count).2.1 = (runCalls s calls).2 ++ [false] ∧
      List.count false (s.audioIn calls ret count).2.1 = 1) ∧
    ((runCalls s calls).1.hangtime_left - count > 0 →
      (s.audioIn calls ret count).1.m_open = (runCalls s calls).1.m_open ∧
      (s.audioIn calls ret count).2.1 = (runCalls s calls).2) := by
  by_cases hb : (runCalls s calls).1.hangtime_left - count ≤ 0
  · have h0 : List.count false (runCalls s calls).2 = 0 :=
      List.count_eq_zero.mpr (runCalls_no_false s calls)
    refine ⟨?_, ?_, fun _ => ⟨?_, ?_, ?_⟩, fun hc => absurd hb (by omega)⟩ <;>
      simp [Squelch.audioIn, h, hb, List.count_append, h0]
  · refine ⟨?_, ?_, fun hc => absurd hc hb, fun _ => ⟨?_, ?_⟩⟩ <;>
      simp [Squelch.audioIn, h, hb]

/-- C1 witness: with state `⟨"", true, 8, 5⟩`, no detector calls, consumed
count 3 and block size 5 the countdown expires: the call returns 3, closes
the squelch and emits exactly one `false`. -/
theorem C1_witness :
    (runCalls (⟨"", true, 8, 5⟩ : Squelch) []).1.hangtime_left > 0 ∧
    ((⟨"", true, 8, 5⟩ : Squelch).audioIn [] 3 5).2.2 = 3 ∧
    ((⟨"", true, 8, 5⟩ : Squelch).audioIn [] 3 5).1.hangtime_left = 0 ∧
    ((⟨"", true, 8, 5⟩ : Squelch).audioIn [] 3 5).1.m_open = false ∧
    List.count false ((⟨"", true, 8, 5⟩ : Squelch).audioIn [] 3 5).2.1 = 1 :=
  ⟨by decide,
   (C1_audioIn_hang_decrement ⟨"", true, 8, 5⟩ [] 3 5 (by decide)).1,
   by decide,
   ((C1_audioIn_hang_decrement ⟨"", true, 8, 5⟩ [] 3 5 (by decide)).2.2.1
     (by decide)).1,
   ((C1_audioIn_hang_decrement ⟨"", true, 8, 5⟩ [] 3 5 (by decide)).2.2.1
     (by decide)).2.2⟩

/-- C2: `setOpen true` always clears the hang countdown and leaves the
squelch latched open; it emits one open notification exactly when
`m_open` was previously false, and nothing otherwise (idempotent). -/
theorem C2_setOpen_true (s : Squelch) :
    (s.setOpen true).1.hangtime_left = 0 ∧
    (s.setOpen true).1.m_open = true ∧
    (s.setOpen true).1.hangtime = s.hangtime ∧
    (s.setOpen true).2 = (if s.m_open = true then [] else [true]) := by
  by_cases h : s.m_open = true <;> simp [Squelch.setOpen, h]

/-- C3: `setOpen false` never emits a notification, leaves `m_open` and
`hangtime` unchanged, and loads the countdown from `hangtime` exactly when
the squelch is latched open with no countdown already active; in particular
an active countdown (`hangtime_left > 0`) is never restarted or extended. -/
theorem C3_setOpen_false (s : Squelch) :
    (s.setOpen false).2 = [] ∧
    (s.setOpen false).1.m_open = s.m_open ∧
    (s.setOpen false).1.hangtime = s.hangtime ∧
    (s.setOpen false).1.hangtime_left =
      (if s.m_open = true ∧ s.hangtime_left ≤ 0 then s.hangtime
       else s.hangtime_left) := by
  by_cases h : s.m_open = true ∧ s.hangtime_left ≤ 0 <;>
    simp [Squelch.setOpen, h]

/-- C4: in every state reachable from the freshly constructed engine by any
sequence of operations, `isOpen` coincides with the latched flag `m_open`,
even though it is computed as `m_open || (hangtime_left > 0)`. -/
theorem C4_isOpen_eq_reported (ops : List Op) :
    (run initSquelch ops).1.isOpen = (run initSquelch ops).1.m_open :=
  isOpen_eq_of_inv _ (run_inv initSquelch ops (by decide))

/-- C5: calling `setOpen true` while a hang countdown is active cancels the
pending close: the call itself emits nothing and clears the countdown, and
along any subsequent operation sequence in which the detector never requests
a close, no close notification (`false`) is ever emitted and `isOpen` reads
`true` after every step. -/
theorem C5_reopen_cancels_close (s : Squelch) (hm : s.m_open = true)
    (_hh : s.hangtime_left > 0) (ops : List Op)
    (hops : ∀ op ∈ ops, op.noClose = true) :
    (s.setOpen true).2 = [] ∧
    (s.setOpen true).1.hangtime_left = 0 ∧
    false ∉ (run (s.setOpen true).1 ops).2 ∧
    (∀ pre suf, ops = pre ++ suf →
      (run (s.setOpen true).1 pre).1.isOpen = true) := by
  have hopen := setOpen_true_of_open s hm
  have hact : activeOpen (s.setOpen true).1 := by
    rw [hopen]
    exact ⟨hm, le_refl 0⟩
  refine ⟨by rw [hopen], by rw [hopen], ?_, ?_⟩
  · rw [(run_activeOpen (s.setOpen true).1 ops hact hops).2]
    simp
  · intro pre suf hps
    have hpre : ∀ op ∈ pre, op.noClose = true := fun o ho =>
      hops o (by rw [hps]; exact List.mem_append_left _ ho)
    have hmo := (run_activeOpen (s.setOpen true).1 pre hact hpre).1.1
    simp [Squelch.isOpen, hmo]

/-- C5 witness: from the hanging state `⟨"", true, 8, 5⟩`, re-opening and
then running a close-free block, a `setHangtime` and another open emits no
close and leaves the squelch reading open. -/
theorem C5_witness :
    (⟨"", true, 8, 5⟩ : Squelch).m_open = true ∧
    (⟨"", true, 8, 5⟩ : Squelch).hangtime_left > 0 ∧
    false ∉ (run ((⟨"", true, 8, 5⟩ : Squelch).setOpen true).1
      [Op.audio [true] 4 4, Op.sHang 2, Op.sOpen true]).2 ∧
    (run ((⟨"", true, 8, 5⟩ : Squelch).setOpen true).1
      [Op.audio [true] 4 4]).1.isOpen = true :=
  ⟨rfl, by decide,
   (C5_reopen_cancels_close ⟨"", true, 8, 5⟩ rfl (by decide)
     [Op.audio [true] 4 4, Op.sHang 2, Op.sOpen true] (by decide)).2.2.1,
   (C5_reopen_cancels_close ⟨"", true, 8, 5⟩ rfl (by decide)
     [Op.audio [true] 4 4, Op.sHang 2, Op.sOpen true] (by decide)).2.2.2
     [Op.audio [true] 4 4] [Op.sHang 2, Op.sOpen true] rfl⟩

/-- The operation sequence refuting claim C6: open, close (loads the
countdown of 1), then an audio block of 2 samples overshoots the expiry. -/
def c6ops : List Op := [Op.sOpen true, Op.sOpen false, Op.audio [] 2 2]

/-- C6 counterexample: in the reachable state after `c6ops`, the countdown
field is `-1`: it is neither `≥ 0` nor zero, yet `m_open` is false — so
"`hangtime_remaining ≥ 0` and non-zero only while `reported_open`" fails. -/
theorem C6_counterexample :
    ¬((run initSquelch c6ops).1.hangtime_left ≥ 0 ∧
      ((run initSquelch c6ops).1.hangtime_left ≠ 0 →
        (run initSquelch c6ops).1.m_open = true)) := by decide

/-- C6 (amended): `hangtime_left` can be driven negative by a hang-expiry
overshoot, so only the strictly-positive form of the invariant holds: every
operation preserves "`hangtime_left > 0` implies `m_open`". -/
theorem C6_hang_invariant_preserved (s : Squelch) (op : Op)
    (h : s.hangtime_left > 0 → s.m_open = true) :
    (step s op).1.hangtime_left > 0 → (step s op).1.m_open = true :=
  step_inv s op h

/-- C6 witness: a `setOpen false` from the actively open state `⟨"", true,
3, 0⟩` loads a positive countdown, and the preserved invariant forces
`m_open` to stay true. -/
theorem C6_witness :
    (step ⟨"", true, 3, 0⟩ (Op.sOpen false)).1.hangtime_left > 0 ∧
    (step ⟨"", true, 3, 0⟩ (Op.sOpen false)).1.m_open = true :=
  ⟨by decide,
   C6_hang_invariant_preserved ⟨"", true, 3, 0⟩ (Op.sOpen false)
     (fun _ => rfl) (by decide)⟩

/-- C7: `setHangtime` stores `max(samples, 1)` — so requests of `0` and
`-5` both clamp to `1` — and leaves the running countdown and the latched
open flag untouched. -/
theorem C7_setHangtime_clamp (s : Squelch) (n : Int) :
    (s.setHangtime n).hangtime = max n 1 ∧
    (s.setHangtime 0).hangtime = 1 ∧
    (s.setHangtime (-5)).hangtime = 1 ∧
    (s.setHangtime n).hangtime_left = s.hangtime_left ∧
    (s.setHangtime n).m_open = s.m_open := by
  refine ⟨?_, by norm_num [Squelch.setHangtime], ?_, rfl, rfl⟩
  · unfold Squelch.setHangtime
    dsimp only
    split_ifs with h <;> omega
  · norm_num [Squelch.setHangtime]

/-- C8: when the configuration lookup of `SQL_HANGTIME` for the channel
succeeds, the millisecond value is converted to samples by `atoi(value)*8`
and installed through `setHangtime`; the configured string `"100"` yields an
effective hangtime of 800 samples. -/
theorem C8_config_hangtime (s : Squelch)
    (cfg : String → String → Option String) (rx_name value : String)
    (h : cfg rx_name "SQL_HANGTIME" = some value) :
    s.initFromConfig cfg rx_name = (s.setHangtime (atoi value * 8), true) ∧
    (value = "100" → (s.initFromConfig cfg rx_name).1.hangtime = 800) := by
  have h1 : s.initFromConfig cfg rx_name
      = (s.setHangtime (atoi value * 8), true) := by
    unfold Squelch.initFromConfig
    rw [h]
  refine ⟨h1, fun hv => ?_⟩
  subst hv
  rw [h1]
  have h100 : atoi "100" = 100 := by decide
  norm_num [Squelch.setHangtime, h100]

/-- The configuration accessor used in the C8 witness: every lookup yields
the string `"100"`. -/
def cfg100 : String → String → Option String := fun _ _ => some "100"

/-- C8 witness: with `SQL_HANGTIME = "100"`, initialization sets the
hangtime to 800 samples. -/
theorem C8_witness :
    cfg100 "Rx1" "SQL_HANGTIME" = some "100" ∧
    (initSquelch.initFromConfig cfg100 "Rx1").1.hangtime = 800 :=
  ⟨rfl, (C8_config_hangtime initSquelch cfg100 "Rx1" "100" rfl).2 rfl⟩

/-- C9: for every configuration accessor the base initialization returns
`true`; the looked-up value (or `0` when the key is absent, which `atoi`
also yields on a malformed string) is passed to `setHangtime`, whose clamp
guarantees an effective hangtime of at least 1 sample. -/
theorem C9_initFromConfig_total (s : Squelch)
    (cfg : String → String → Option String) (rx_name : String) :
    (s.initFromConfig cfg rx_name).2 = true ∧
    (s.initFromConfig cfg rx_name).1 =
      s.setHangtime (match cfg rx_name "SQL_HANGTIME" with
                     | some value => atoi value * 8
                     | none => 0) ∧
    (s.initFromConfig cfg rx_name).1.hangtime ≥ 1 := by
  refine ⟨rfl, rfl, ?_⟩
  unfold Squelch.initFromConfig Squelch.setHangtime
  dsimp only
  split_ifs with h <;> omega

/-- C10: in every state reachable from the freshly constructed engine by
any sequence of `setOpen`, `setHangtime` and `audioIn` operations, a strictly
positive `hangtime_left` forces `m_open = true` (so the hang window never
outlives the latched open flag, though the countdown may end negative). -/
theorem C10_reachable_hang_positive_open (ops : List Op)
    (h : (run initSquelch ops).1.hangtime_left > 0) :
    (run initSquelch ops).1.m_open = true :=
  run_inv initSquelch ops (by decide) h

/-- C10 witness: after an open followed by a close request, the countdown is
positive and the invariant yields `m_open = true`. -/
theorem C10_witness :
    (run initSquelch [Op.sOpen true, Op.sOpen false]).1.hangtime_left > 0 ∧
    (run initSquelch [Op.sOpen true, Op.sOpen false]).1.m_open = true :=
  ⟨by decide,
   C10_reachable_hang_positive_open [Op.sOpen true, Op.sOpen false]
     (by decide)⟩

end SvxSquelch
